import Mathlib

/-!
Verification of the SmartTwin CEP analytical core.

This file is a shallow embedding, over `ℚ`, of the analytical pipeline of
the repository: the EMA digital twin (`backend/models/digital_twin.py`),
the hybrid anomaly detector (`backend/models/anomaly.py`), the sampling
policy (`backend/models/sampling.py`), the capability / run-rule engine
(`backend/models/cep.py`), and the orchestrator `_process_value`
(`backend/api/main.py`).

Encoding of square roots: the source computes `std = sqrt(var)` with
floats and only ever uses `std` inside quantities of the form
`x / std` compared against constant thresholds, or tested for zero.
Since `t ↦ t * |t|` is a strictly monotone bijection of the reals, every
such quantity `q = x / sqrt var` is represented here exactly by its
signed square `q * |q| = x * |x| / var : ℚ`, and every comparison made by
the program translates to the squared comparison (`|q| ≥ t ↔ |q*|q|| ≥ t²`
for `t ≥ 0`, `q = 0 ↔ q*|q| = 0`).  The lemmas `signedSq_div_sqrt`,
`abs_le_div_sqrt_iff` and `div_sqrt_eq_zero_iff` below prove that the
encoding is faithful.  The external scikit-learn `IsolationForest` is not
part of the repository; it is abstracted as an `IForestImpl` interface
and all theorems hold for every implementation of that interface.
-/

namespace SmartTwin

/-- Signed square `x * |x|`: the order-isomorphic representation used for
quantities of the source that are divided by a (float) square root. -/
def signedSq (x : ℚ) : ℚ := x * |x|

/-- Arithmetic mean of a list, `np.mean`; `0` on the empty list (the source
only evaluates it with the same emptiness guards reproduced here). -/
def listMean (l : List ℚ) : ℚ := l.sum / (l.length : ℚ)

/-- Square of the Bessel-corrected standard deviation `np.std(ddof=1)`:
the sample variance `Σ (x - mean)² / (n - 1)` for `n > 1`, else `0`
(mirroring the sources' `std = x.std(ddof=1) if n > 1 else 0.0`). -/
def listVarSample (l : List ℚ) : ℚ :=
  if 1 < l.length then
    ((l.map (fun x => (x - listMean l) ^ 2)).sum) / ((l.length : ℚ) - 1)
  else 0

/-! ## backend/models/digital_twin.py -/

/-- `EmaConfig` of digital_twin.py (smoothing factor, default 0.3). -/
structure EmaConfig where
  alpha : ℚ := 3 / 10
deriving DecidableEq

/-- State of `DigitalTwinModel`: smoothing config, the current EMA
(`_last_ema`, `None` when no value was ever seen), and the bounded value
history (`deque(maxlen=1000)`, unused by prediction). -/
structure DigitalTwinModel where
  config : EmaConfig
  last_ema : Option ℚ
  history : List ℚ
deriving DecidableEq

/-- A freshly constructed `DigitalTwinModel(config)`. -/
def DigitalTwinModel.fresh (cfg : EmaConfig) : DigitalTwinModel :=
  ⟨cfg, none, []⟩

/-- `DigitalTwinModel.reset`. -/
def DigitalTwinModel.reset (m : DigitalTwinModel) : DigitalTwinModel :=
  { m with last_ema := none, history := [] }

/-- Append to a `deque(maxlen=1000)`: the newest 1000 elements are kept. -/
def dequeAppend1000 (h : List ℚ) (v : ℚ) : List ℚ :=
  let h1 := h ++ [v]
  if h1.length ≤ 1000 then h1 else h1.drop (h1.length - 1000)

/-- `DigitalTwinModel.update`: record the value and fold it into the EMA
(first value taken as-is, afterwards `α·value + (1-α)·last_ema`). -/
def DigitalTwinModel.update (m : DigitalTwinModel) (value : ℚ) :
    DigitalTwinModel :=
  { m with
    history := dequeAppend1000 m.history value,
    last_ema := some (match m.last_ema with
      | none => value
      | some e => m.config.alpha * value + (1 - m.config.alpha) * e) }

/-- `DigitalTwinModel.predict`: the current EMA, `None` when unset. -/
def DigitalTwinModel.predict (m : DigitalTwinModel) : Option ℚ :=
  m.last_ema

/-- `DigitalTwinModel.get_residual`: `value - prediction`, `0.0` when no
prediction exists yet. -/
def DigitalTwinModel.get_residual (m : DigitalTwinModel) (value : ℚ) : ℚ :=
  match m.last_ema with
  | none => 0
  | some e => value - e

/-- `DigitalTwinModel.fit_from_series`: reset, then update with each value
of the series in order. -/
def DigitalTwinModel.fit_from_series (m : DigitalTwinModel)
    (series : List ℚ) : DigitalTwinModel :=
  series.foldl DigitalTwinModel.update m.reset

/-! ## backend/models/anomaly.py -/

/-- `AnomalyConfig` (contamination 0.03, z-score threshold 3.0). -/
structure AnomalyConfig where
  contamination : ℚ := 3 / 100
  zscore_threshold : ℚ := 3
deriving DecidableEq

/-- Interface of the external scikit-learn `IsolationForest` (not part of
the repository): fitting on a residual sample, the signed
`decision_function`, and whether `predict` returns `-1` (anomaly).  All
theorems below are proved for an arbitrary implementation. -/
structure IForestImpl (F : Type) where
  fitModel : List ℚ → F
  decisionFunction : F → ℚ → ℚ
  predictIsAnomaly : F → ℚ → Bool

/-- A vacuous implementation of the interface, used to instantiate
concrete runs in which the model is never consulted. -/
def trivialIF : IForestImpl Unit :=
  ⟨fun _ => (), fun _ _ => 0, fun _ _ => false⟩

/-- State of `AnomalyDetector`: config, the optional fitted model
(`_model`), the fitted flag (`_fitted`) and the residual history
(`_residuals_history`). -/
structure AnomalyDetector (F : Type) where
  config : AnomalyConfig
  model : Option F
  fitted : Bool
  residuals_history : List ℚ

/-- A freshly constructed `AnomalyDetector(config)`. -/
def AnomalyDetector.fresh (F : Type) (cfg : AnomalyConfig) :
    AnomalyDetector F :=
  ⟨cfg, none, false, []⟩

/-- `AnomalyDetector.fit`: with fewer than 10 residuals mark the model
unfitted and return; otherwise fit an `IsolationForest` on the residuals,
mark fitted, and store the training residuals as the history. -/
def AnomalyDetector.fit {F : Type} (impl : IForestImpl F)
    (d : AnomalyDetector F) (residuals : List ℚ) : AnomalyDetector F :=
  if residuals.length < 10 then { d with fitted := false }
  else
    { d with
      model := some (impl.fitModel residuals),
      fitted := true,
      residuals_history := residuals }

/-- `AnomalyDetector.partial_update`: append the residual to the history;
when the history length is a multiple of 50, refit on the whole history. -/
def AnomalyDetector.partialUpdate {F : Type} (impl : IForestImpl F)
    (d : AnomalyDetector F) (residual : ℚ) : AnomalyDetector F :=
  let d1 := { d with residuals_history := d.residuals_history ++ [residual] }
  if d1.residuals_history.length % 50 = 0 then
    d1.fit impl d1.residuals_history
  else d1

/-- The sample over which `score_point` computes its statistics: the
stored residual history plus the candidate residual. -/
def AnomalyDetector.scoreSample {F : Type} (d : AnomalyDetector F)
    (res : ℚ) : List ℚ :=
  d.residuals_history ++ [res]

/-- The z-score of `score_point` over an explicit sample, in the
signed-square encoding: the source computes
`z = (res - mean) / std if std > 0 else 0.0`; here `z * |z|` is returned,
which is `(res - mean) * |res - mean| / var` when `var > 0`, else `0`. -/
def zscoreSqOfSample (hist : List ℚ) (res : ℚ) : ℚ :=
  let mean := if 0 < hist.length then listMean hist else 0
  let v := listVarSample hist
  if 0 < v then signedSq (res - mean) / v else 0

/-- The IsolationForest part of `score_point`: `(decision_function,
predict == -1)` when a fitted model exists, `(0.0, False)` otherwise. -/
def AnomalyDetector.iforestEval {F : Type} (impl : IForestImpl F)
    (d : AnomalyDetector F) (res : ℚ) : ℚ × Bool :=
  if d.fitted then
    match d.model with
    | some m => (impl.decisionFunction m res, impl.predictIsAnomaly m res)
    | none => (0, false)
  else (0, false)

/-- Result dictionary of `score_point`; `zscore_sq` is the signed square
of the source's `zscore_residual`. -/
structure ScoreResult where
  residual : ℚ
  zscore_sq : ℚ
  iforest_score : ℚ
  is_anomaly : Bool
deriving DecidableEq

/-- `AnomalyDetector.score_point`: z-score of the residual over
history-plus-candidate, IsolationForest score and flag when fitted, and
`is_anomaly` as the disjunction of the forest flag with
`|z| ≥ zscore_threshold` (encoded as `threshold² ≤ |z·|z||`). -/
def AnomalyDetector.scorePoint {F : Type} (impl : IForestImpl F)
    (d : AnomalyDetector F) (residual : ℚ) : ScoreResult :=
  let res := residual
  let hist := d.scoreSample res
  let zsq := zscoreSqOfSample hist res
  let iforest := d.iforestEval impl res
  let is_z : Bool := decide (d.config.zscore_threshold ^ 2 ≤ |zsq|)
  ⟨res, zsq, iforest.1, iforest.2 || is_z⟩

/-! ## backend/models/sampling.py -/

/-- `SamplingDecision` (level and human-readable reason). -/
structure SamplingDecision where
  level : String
  reason : String
deriving DecidableEq

/-- `SamplingEngine.decide`.  The z-score argument is carried in the
signed-square encoding, so the source's test `abs(z) >= 2` becomes
`4 ≤ |zsq|`. -/
def SamplingEngine.decide (is_anomaly : Bool) (zscore_sq : Option ℚ) :
    SamplingDecision :=
  if is_anomaly then
    ⟨"critico", "Anomalia detectada (IsolationForest ou |z| alto)."⟩
  else
    match zscore_sq with
    | none => ⟨"normal", "Sem estatística suficiente."⟩
    | some zsq =>
      if 4 ≤ |zsq| then
        ⟨"atencao", "Resíduo moderadamente distante da média (|z| ≥ 2)."⟩
      else ⟨"normal", "Resíduo dentro de faixa esperada."⟩

/-! ## backend/api/main.py : the orchestrator `_process_value` -/

/-- The global mutable state of the orchestrator: one digital twin and
one anomaly detector. -/
structure PipelineState (F : Type) where
  digital_twin : DigitalTwinModel
  anomaly_detector : AnomalyDetector F

/-- The state installed by `main.py` at startup (alpha 0.3, default
anomaly config). -/
def PipelineState.fresh (F : Type) : PipelineState F :=
  ⟨DigitalTwinModel.fresh {}, AnomalyDetector.fresh F {}⟩

/-- The enriched measurement record emitted by `_process_value` (the
fields relevant to the analytical core; `zscore_sq` is the signed square
of the stored `zscore_residual`).  `value_pred` is `Option` because the
database column is nullable. -/
structure MeasurementOut where
  value_real : ℚ
  value_pred : Option ℚ
  residual : ℚ
  zscore_sq : ℚ
  iforest_score : ℚ
  is_anomaly : Bool
  sampling_level : String
  sampling_reason : String
deriving DecidableEq

/-- `_process_value`: predict (falling back to the value itself when no
prediction exists), compute the residual, update the detector, score,
decide sampling, update the twin, and emit the enriched record. -/
def processValue {F : Type} (impl : IForestImpl F) (st : PipelineState F)
    (value : ℚ) : MeasurementOut × PipelineState F :=
  let pred_before := st.digital_twin.predict.getD value
  let residual := value - pred_before
  let det1 := st.anomaly_detector.partialUpdate impl residual
  let scores := det1.scorePoint impl residual
  let decision := SamplingEngine.decide scores.is_anomaly
    (some scores.zscore_sq)
  let twin1 := st.digital_twin.update value
  (⟨value, some pred_before, scores.residual, scores.zscore_sq,
    scores.iforest_score, scores.is_anomaly, decision.level,
    decision.reason⟩,
   ⟨twin1, det1⟩)

/-- Feed a whole sequence through the orchestrator value by value,
collecting the emitted records in order. -/
def processSeq {F : Type} (impl : IForestImpl F) (st : PipelineState F)
    (values : List ℚ) : List MeasurementOut × PipelineState F :=
  values.foldl
    (fun acc v =>
      let step := processValue impl acc.2 v
      (acc.1 ++ [step.1], step.2))
    ([], st)

/-! ## backend/models/cep.py -/

/-- `CepStats` of cep.py.  `std_sq` is the square of the source's `std`
(`np.std(ddof=1)` for `n > 1`, else `0.0`); `cp_sq` / `cpk_sq` are the
signed squares of the nullable capability indices `cp` / `cpk`. -/
structure CepStats where
  mean : ℚ
  std_sq : ℚ
  r : ℚ
  cp_sq : Option ℚ
  cpk_sq : Option ℚ
  lsl : ℚ
  usl : ℚ
  n : ℕ
deriving DecidableEq

/-- Maximum of a list of rationals (used only on nonempty lists, like
`np.max`). -/
def listMax (l : List ℚ) : ℚ := l.foldl max (l.headD 0)

/-- Minimum of a list of rationals (used only on nonempty lists, like
`np.min`). -/
def listMin (l : List ℚ) : ℚ := l.foldl min (l.headD 0)

/-- `compute_cp_cpk`: all-zero / null stats for the empty list; otherwise
mean, sample variance and range, with `cp = (usl-lsl)/(6 std)`,
`cpk = min((usl-mean)/(3 std), (mean-lsl)/(3 std))` when `std ≠ 0` and
`cp = cpk = null` when `std = 0`.  In the signed-square encoding
`cp·|cp| = (usl-lsl)|usl-lsl|/(36 var)` and likewise with `9 var` for
`cpu`, `cpl`; `min` commutes with the encoding since `t ↦ t|t|` is
strictly monotone. -/
def compute_cp_cpk (values : List ℚ) (lsl usl : ℚ) : CepStats :=
  let n := values.length
  if n = 0 then ⟨0, 0, 0, none, none, lsl, usl, 0⟩
  else
    let mean := listMean values
    let var := listVarSample values
    let r := if 1 < n then listMax values - listMin values else 0
    if var = 0 then ⟨mean, var, r, none, none, lsl, usl, n⟩
    else
      let cpSq := signedSq (usl - lsl) / (36 * var)
      let cpuSq := signedSq (usl - mean) / (9 * var)
      let cplSq := signedSq (mean - lsl) / (9 * var)
      ⟨mean, var, r, some cpSq, some (min cpuSq cplSq), lsl, usl, n⟩

/-- `np.sign` on `value - mean`, as an integer in `{-1, 0, 1}`. -/
def sgn (q : ℚ) : ℤ :=
  if 0 < q then 1 else if q < 0 then -1 else 0

/-- Insert into a strictly increasing list, keeping it strictly
increasing (duplicates are dropped). -/
def sortedInsert (k : ℕ) : List ℕ → List ℕ
  | [] => [k]
  | m :: ms =>
    if k < m then k :: m :: ms
    else if k = m then m :: ms
    else m :: sortedInsert k ms

/-- `sorted(set(lst))` of the source: the strictly increasing enumeration
of the distinct elements of the list. -/
def sortedDedup (l : List ℕ) : List ℕ := l.foldr sortedInsert []

/-- Result of `detect_run_rules`: flagged indices per rule. -/
structure RunRuleResult where
  rule1 : List ℕ
  rule4 : List ℕ
deriving DecidableEq

/-- The rule-4 loop of `detect_run_rules`, fuel-based so that it reduces
definitionally.  State: current index `i` (the loop runs `i = 1 .. n-1`),
current `streak_start`, accumulated flagged indices.  A zero side (point
on the mean) restarts the streak at `i+1`; a side change restarts it at
`i`; once the current streak reaches length 8 all its indices are
appended. -/
def rule4Go (side : List ℤ) : ℕ → ℕ → ℕ → List ℕ → List ℕ
  | 0, _, _, acc => acc
  | fuel + 1, i, streak, acc =>
    if i < side.length then
      if side.getD i 0 = 0 then rule4Go side fuel (i + 1) (i + 1) acc
      else
        let streak1 := if side.getD i 0 ≠ side.getD (i - 1) 0 then i
          else streak
        let acc1 := if 8 ≤ i + 1 - streak1 then
            acc ++ List.range' streak1 (i + 1 - streak1)
          else acc
        rule4Go side fuel (i + 1) streak1 acc1
    else acc

/-- The rule-4 index list for a given side sequence (loop from `i = 1`
with `streak_start = 0`; `side.length` fuel suffices for the whole
loop). -/
def rule4Idx (side : List ℤ) : List ℕ :=
  rule4Go side side.length 1 0 []

/-- `detect_run_rules`: empty results for fewer than 8 values or zero
variance; otherwise rule 1 flags indices with `|v - mean| > 3 std`
(encoded `(v - mean)² > 9 var`) and rule 4 flags same-side runs of
length ≥ 8; both lists are returned sorted and deduplicated. -/
def detect_run_rules (values : List ℚ) : RunRuleResult :=
  if values.length < 8 then ⟨[], []⟩
  else
    let mean := listMean values
    let var := listVarSample values
    let pair : List ℕ × List ℕ :=
      if 0 < var then
        let rule1_idx := (List.range values.length).filter fun i =>
          decide (9 * var < (values.getD i 0 - mean) ^ 2)
        let side := values.map fun v => sgn (v - mean)
        (rule1_idx, rule4Idx side)
      else ([], [])
    ⟨sortedDedup pair.1, sortedDedup pair.2⟩

/-! ## Faithfulness of the signed-square encoding

The source's `q = x / std` with `std = sqrt var > 0` is represented by
`signedSq x / var`.  These lemmas show the representation is exact. -/

/-- The signed square of the real quotient `x / √var` is exactly the
rational `signedSq x / var`. -/
theorem signedSq_div_sqrt (x v : ℚ) (hv : 0 < v) :
    ((x : ℝ) / Real.sqrt (v : ℝ)) * |(x : ℝ) / Real.sqrt (v : ℝ)| =
      ((signedSq x / v : ℚ) : ℝ) := by
  have hv' : (0 : ℝ) < (v : ℝ) := by exact_mod_cast hv
  have h2 : Real.sqrt (v : ℝ) * Real.sqrt (v : ℝ) = (v : ℝ) :=
    Real.mul_self_sqrt hv'.le
  rw [abs_div, abs_of_nonneg (Real.sqrt_nonneg _), div_mul_div_comm, h2]
  push_cast [signedSq]
  ring

/-- `|signedSq x / v| = x² / v` for positive `v`. -/
theorem abs_signedSq_div (x v : ℚ) (hv : 0 < v) :
    |signedSq x / v| = x ^ 2 / v := by
  rw [signedSq, abs_div, abs_mul, abs_abs, abs_of_pos hv, ← sq_abs, sq]

/-- The threshold tests of the source: for `t ≥ 0`,
`t ≤ |x / √var|` holds iff `t² ≤ |signedSq x / var|`. -/
theorem abs_le_div_sqrt_iff (x v t : ℚ) (hv : 0 < v) (ht : 0 ≤ t) :
    ((t : ℝ) ≤ |(x : ℝ) / Real.sqrt (v : ℝ)|) ↔
      t ^ 2 ≤ |signedSq x / v| := by
  have hv' : (0 : ℝ) < (v : ℝ) := by exact_mod_cast hv
  have hz2 : |(x : ℝ) / Real.sqrt (v : ℝ)| ^ 2 = (x : ℝ) ^ 2 / (v : ℝ) := by
    rw [sq_abs, div_pow, Real.sq_sqrt hv'.le]
  have ht' : (0 : ℝ) ≤ (t : ℝ) := by exact_mod_cast ht
  rw [abs_signedSq_div x v hv,
    ← pow_le_pow_iff_left₀ ht' (abs_nonneg ((x : ℝ) / Real.sqrt (v : ℝ)))
      (two_ne_zero), hz2]
  constructor <;> intro h <;> exact_mod_cast h

/-- Zero tests of the source: `x / √var = 0` iff `signedSq x / var = 0`. -/
theorem div_sqrt_eq_zero_iff (x v : ℚ) (hv : 0 < v) :
    ((x : ℝ) / Real.sqrt (v : ℝ) = 0) ↔ signedSq x / v = 0 := by
  have hv' : (0 : ℝ) < (v : ℝ) := by exact_mod_cast hv
  have hs : Real.sqrt (v : ℝ) ≠ 0 := by positivity
  constructor
  · intro h
    rcases div_eq_zero_iff.mp h with h0 | h0
    · have : x = 0 := by exact_mod_cast h0
      simp [this, signedSq]
    · exact absurd h0 hs
  · intro h
    rcases div_eq_zero_iff.mp h with h0 | h0
    · have : x = 0 := by simpa [signedSq] using h0
      simp [this]
    · exact absurd h0 hv.ne'

/-! ## Helper lemmas -/

/-- `partial_update` always extends the history by exactly the appended
residual, whether or not it retrains: a triggered `fit` is called on the
updated history itself and stores it back unchanged. -/
theorem partialUpdate_residuals_history {F : Type} (impl : IForestImpl F)
    (d : AnomalyDetector F) (r : ℚ) :
    (d.partialUpdate impl r).residuals_history =
      d.residuals_history ++ [r] := by
  unfold AnomalyDetector.partialUpdate AnomalyDetector.fit
  dsimp only
  split_ifs <;> rfl

/-- The retrain branch of `partial_update`: when the updated history
length is a multiple of 50 the detector is refit on the whole updated
history (which then has length ≥ 50 ≥ 10, so the fit succeeds). -/
theorem partialUpdate_retrain {F : Type} (impl : IForestImpl F)
    (d : AnomalyDetector F) (r : ℚ)
    (h : (d.residuals_history.length + 1) % 50 = 0) :
    (d.partialUpdate impl r).fitted = true ∧
    (d.partialUpdate impl r).model =
      some (impl.fitModel (d.residuals_history ++ [r])) := by
  have hlen : (d.residuals_history ++ [r]).length =
      d.residuals_history.length + 1 := by simp
  have hge : ¬ d.residuals_history.length + 1 < 10 := by omega
  unfold AnomalyDetector.partialUpdate AnomalyDetector.fit
  simp [hlen, h, hge]

/-- The no-retrain branch of `partial_update`: when the updated history
length is not a multiple of 50, only the history changes. -/
theorem partialUpdate_no_retrain {F : Type} (impl : IForestImpl F)
    (d : AnomalyDetector F) (r : ℚ)
    (h : (d.residuals_history.length + 1) % 50 ≠ 0) :
    d.partialUpdate impl r =
      { d with residuals_history := d.residuals_history ++ [r] } := by
  have hlen : (d.residuals_history ++ [r]).length =
      d.residuals_history.length + 1 := by simp
  unfold AnomalyDetector.partialUpdate
  simp [hlen, h]

/-! ## Claims about the data model and operations -/

/-- C5: `predict` on a fresh or reset predictor is undefined; `update`
seeds the estimate with the first value and otherwise forms
`α·value + (1-α)·last_estimate`; hence a single `update v` on a fresh
predictor makes `predict = some v`; and `fit_from_series` is a reset
followed by an in-order `update` on each value. -/
theorem C5_digital_twin (cfg : EmaConfig) (m : DigitalTwinModel) (v : ℚ)
    (series : List ℚ) :
    (DigitalTwinModel.fresh cfg).predict = none ∧
    m.reset.predict = none ∧
    (m.last_ema = none → (m.update v).predict = some v) ∧
    (∀ e : ℚ, m.last_ema = some e →
      (m.update v).predict =
        some (m.config.alpha * v + (1 - m.config.alpha) * e)) ∧
    ((DigitalTwinModel.fresh cfg).update v).predict = some v ∧
    m.fit_from_series series =
      List.foldl DigitalTwinModel.update m.reset series := by
  refine ⟨rfl, rfl, ?_, ?_, rfl, rfl⟩
  · intro h
    simp [DigitalTwinModel.update, DigitalTwinModel.predict, h]
  · intro e h
    simp [DigitalTwinModel.update, DigitalTwinModel.predict, h]

/-- Witness for C5 at concrete inputs: one update of a fresh predictor
with 5 predicts 5; a further update with 7 predicts
`0.3·7 + 0.7·5`. -/
theorem C5_witness :
    ((DigitalTwinModel.fresh {}).update 5).predict = some 5 ∧
    (((DigitalTwinModel.fresh {}).update 5).update 7).predict =
      some (3 / 10 * 7 + (1 - 3 / 10) * 5) := by
  constructor
  · exact (C5_digital_twin {} (DigitalTwinModel.fresh {}) 5 []).2.2.1 rfl
  · exact
      (C5_digital_twin {} ((DigitalTwinModel.fresh {}).update 5) 7
        []).2.2.2.1 5 rfl

/-- C8: the sampling decision is a pure total function of
`(is_anomaly, zscore)`: anomaly wins and yields `critico` for every
z-score; a missing z-score yields `normal` with the
insufficient-statistics reason; otherwise `|z| ≥ 2` (encoded: the signed
square is ≥ 4 in absolute value) yields `atencao`, and `normal`
otherwise. -/
theorem C8_sampling_decide (z : Option ℚ) (zq : ℚ) :
    SamplingEngine.decide true z =
      ⟨"critico", "Anomalia detectada (IsolationForest ou |z| alto)."⟩ ∧
    SamplingEngine.decide false none =
      ⟨"normal", "Sem estatística suficiente."⟩ ∧
    (4 ≤ |zq| →
      SamplingEngine.decide false (some zq) =
        ⟨"atencao", "Resíduo moderadamente distante da média (|z| ≥ 2)."⟩) ∧
    (|zq| < 4 →
      SamplingEngine.decide false (some zq) =
        ⟨"normal", "Resíduo dentro de faixa esperada."⟩) := by
  refine ⟨rfl, rfl, ?_, ?_⟩
  · intro h
    simp [SamplingEngine.decide, h]
  · intro h
    simp [SamplingEngine.decide, not_le.mpr h]

/-- Witness for C8: `decide(false, z)` at `z = 2.5` (signed square 6.25)
is `atencao`, and at `z = 0.1` (signed square 0.01) is `normal`. -/
theorem C8_witness :
    SamplingEngine.decide false (some (25 / 4)) =
      ⟨"atencao", "Resíduo moderadamente distante da média (|z| ≥ 2)."⟩ ∧
    SamplingEngine.decide false (some (1 / 100)) =
      ⟨"normal", "Resíduo dentro de faixa esperada."⟩ :=
  ⟨(C8_sampling_decide none (25 / 4)).2.2.1 (by norm_num [abs_of_nonneg]),
   (C8_sampling_decide none (1 / 100)).2.2.2 (by norm_num [abs_of_nonneg])⟩

/-- C9: scoring is total (it is a Lean function) and safe on degenerate
input: a sample of size ≤ 1 has zero variance; zero variance yields a
zero z-score with no division; and an unfitted model contributes score 0
and flag `false`. -/
theorem C9_score_degenerate {F : Type} (impl : IForestImpl F)
    (d : AnomalyDetector F) (r : ℚ) :
    ((d.scoreSample r).length ≤ 1 → listVarSample (d.scoreSample r) = 0) ∧
    (listVarSample (d.scoreSample r) = 0 →
      (d.scorePoint impl r).zscore_sq = 0) ∧
    (d.fitted = false →
      (d.scorePoint impl r).iforest_score = 0 ∧
      d.iforestEval impl r = (0, false)) := by
  refine ⟨?_, ?_, ?_⟩
  · intro h
    simp [listVarSample, Nat.not_lt.mpr h]
  · intro h
    simp [AnomalyDetector.scorePoint, zscoreSqOfSample, h]
  · intro h
    simp [AnomalyDetector.scorePoint, AnomalyDetector.iforestEval, h]

/-- Witness for C9 on an empty fresh detector and residual 5: the sample
is `[5]` (size 1), the z-score is 0 and the forest contribution is
`(0, false)`. -/
theorem C9_witness :
    ((AnomalyDetector.fresh Unit {}).scoreSample 5).length ≤ 1 ∧
    listVarSample ((AnomalyDetector.fresh Unit {}).scoreSample 5) = 0 ∧
    ((AnomalyDetector.fresh Unit {}).scorePoint trivialIF 5).zscore_sq = 0 ∧
    (AnomalyDetector.fresh Unit {}).iforestEval trivialIF 5 = (0, false) := by
  have h := C9_score_degenerate trivialIF (AnomalyDetector.fresh Unit {}) 5
  have h1 : ((AnomalyDetector.fresh Unit {}).scoreSample 5).length ≤ 1 := by
    decide
  have h2 := h.1 h1
  exact ⟨h1, h2, h.2.1 h2, (h.2.2 rfl).2⟩

/-- C4: `partial_update` appends and retrains exactly at multiples of 50
(on the entire history, which then has ≥ 50 ≥ 10 elements, so the model
becomes fitted); `fit` on fewer than 10 residuals only clears the fitted
flag; and an unfitted detector scores with the z-score signal alone. -/
theorem C4_retrain_cadence {F : Type} (impl : IForestImpl F)
    (d : AnomalyDetector F) (r : ℚ) (rs : List ℚ) :
    (d.partialUpdate impl r).residuals_history =
      d.residuals_history ++ [r] ∧
    ((d.residuals_history.length + 1) % 50 ≠ 0 →
      d.partialUpdate impl r =
        { d with residuals_history := d.residuals_history ++ [r] }) ∧
    ((d.residuals_history.length + 1) % 50 = 0 →
      (d.partialUpdate impl r).fitted = true ∧
      (d.partialUpdate impl r).model =
        some (impl.fitModel (d.residuals_history ++ [r]))) ∧
    (rs.length < 10 → d.fit impl rs = { d with fitted := false }) ∧
    (d.fitted = false →
      d.iforestEval impl r = (0, false) ∧
      (d.scorePoint impl r).is_anomaly =
        decide (d.config.zscore_threshold ^ 2 ≤
          |(d.scorePoint impl r).zscore_sq|)) := by
  refine ⟨partialUpdate_residuals_history impl d r,
    partialUpdate_no_retrain impl d r, partialUpdate_retrain impl d r,
    ?_, ?_⟩
  · intro h
    unfold AnomalyDetector.fit
    simp [h]
  · intro h
    constructor
    · simp [AnomalyDetector.iforestEval, h]
    · simp [AnomalyDetector.scorePoint, AnomalyDetector.iforestEval, h]

/-- Witness for C4: a detector holding 49 residuals retrains on the 50th
`partial_update` (becoming fitted, model trained on all 50), while a
fresh detector does not retrain on its first update; a `fit` on a single
residual leaves the detector unfitted; an unfitted fresh detector scores
`(0, false)` from the forest. -/
theorem C4_witness :
    (({ config := {}, model := none, fitted := false,
        residuals_history := List.replicate 49 0 } :
        AnomalyDetector Unit).partialUpdate trivialIF 0).fitted = true ∧
    ((AnomalyDetector.fresh Unit {}).partialUpdate trivialIF 0) =
      { AnomalyDetector.fresh Unit {} with residuals_history := [0] } ∧
    (AnomalyDetector.fresh Unit {}).fit trivialIF [3] =
      { AnomalyDetector.fresh Unit {} with fitted := false } ∧
    (AnomalyDetector.fresh Unit {}).iforestEval trivialIF 7 = (0, false) := by
  refine ⟨?_, ?_, ?_, ?_⟩
  · exact ((C4_retrain_cadence trivialIF _ 0 []).2.2.1 (by decide)).1
  · have h := (C4_retrain_cadence trivialIF
      (AnomalyDetector.fresh Unit {}) 0 []).2.1 (by decide)
    simpa [AnomalyDetector.fresh] using h
  · exact (C4_retrain_cadence trivialIF (AnomalyDetector.fresh Unit {}) 0
      [3]).2.2.2.1 (by decide)
  · exact ((C4_retrain_cadence trivialIF (AnomalyDetector.fresh Unit {}) 7
      []).2.2.2.2 rfl).1

/-- C10: the recorded residual history is append-only: every
`partial_update` extends it by exactly one element (so its length grows
strictly by one), and on a retraining event (updated length a multiple
of 50) the fitted model is replaced while the history still equals the
old history plus the new residual — it never shrinks. -/
theorem C10_history_append_only {F : Type} (impl : IForestImpl F)
    (d : AnomalyDetector F) (r : ℚ) :
    (d.partialUpdate impl r).residuals_history =
      d.residuals_history ++ [r] ∧
    (d.partialUpdate impl r).residuals_history.length =
      d.residuals_history.length + 1 ∧
    ((d.residuals_history.length + 1) % 50 = 0 →
      (d.partialUpdate impl r).model =
        some (impl.fitModel (d.residuals_history ++ [r])) ∧
      ¬ (d.partialUpdate impl r).residuals_history.length <
          d.residuals_history.length) := by
  have happ := partialUpdate_residuals_history impl d r
  refine ⟨happ, by simp [happ], ?_⟩
  intro h
  exact ⟨(partialUpdate_retrain impl d r h).2, by simp [happ]⟩

/-- Witness for C10: at the retraining event of the 50th residual the
model is replaced and the history has grown to 50 elements. -/
theorem C10_witness :
    (({ config := {}, model := none, fitted := false,
        residuals_history := List.replicate 49 0 } :
        AnomalyDetector Unit).partialUpdate trivialIF 0).model = some () ∧
    (({ config := {}, model := none, fitted := false,
        residuals_history := List.replicate 49 0 } :
        AnomalyDetector Unit).partialUpdate
          trivialIF 0).residuals_history.length = 50 := by
  have h := C10_history_append_only trivialIF
    ({ config := {}, model := none, fitted := false,
       residuals_history := List.replicate 49 0 } : AnomalyDetector Unit) 0
  exact ⟨(h.2.2 (by decide)).1, by rw [h.2.1]; simp⟩

/-- Counterexample to C2: on the very first measurement ever processed
(fresh predictor, `predict = none`), the orchestrator does NOT emit a
null `value_pred`: `_process_value` substitutes the incoming value itself
(`if pred_before is None: pred_before = value`) and stores it, so the
first record carries `value_pred = some 5`, not `none`. -/
theorem C2_counterexample :
    (PipelineState.fresh Unit).digital_twin.predict = none ∧
    (processValue trivialIF (PipelineState.fresh Unit) 5).1.value_pred =
      some 5 ∧
    (processValue trivialIF (PipelineState.fresh Unit) 5).1.value_pred ≠
      none := by
  refine ⟨rfl, rfl, ?_⟩
  exact (by simp : (some (5 : ℚ)) ≠ none)

/-- C2 as amended: `value_pred` always equals the predictor's estimate
before the value was incorporated when such an estimate exists, and is
never null: for the very first measurement of a predictor instance it is
the observed value itself, which makes the stored residual 0 (the 0.0
convention is realised by subtraction, not by a null). -/
theorem C2_value_pred_amended {F : Type} (impl : IForestImpl F)
    (st : PipelineState F) (v : ℚ) :
    (processValue impl st v).1.value_pred =
      some (st.digital_twin.predict.getD v) ∧
    (st.digital_twin.predict = none →
      (processValue impl st v).1.value_pred = some v ∧
      (processValue impl st v).1.residual = 0) ∧
    (∀ e : ℚ, st.digital_twin.predict = some e →
      (processValue impl st v).1.value_pred = some e ∧
      (processValue impl st v).1.residual = v - e) := by
  refine ⟨rfl, ?_, ?_⟩
  · intro h
    constructor
    · simp [processValue, h]
    · simp [processValue, AnomalyDetector.scorePoint, h]
  · intro e h
    constructor
    · simp [processValue, h]
    · simp [processValue, AnomalyDetector.scorePoint, h]

/-- Witness for C2 (amended) on the first measurement of a fresh
pipeline: `value_pred = some 5` and `residual = 0`. -/
theorem C2_witness :
    (processValue trivialIF (PipelineState.fresh Unit) 5).1.value_pred =
      some 5 ∧
    (processValue trivialIF (PipelineState.fresh Unit) 5).1.residual = 0 :=
  (C2_value_pred_amended trivialIF (PipelineState.fresh Unit) 5).2.1 rfl

/-- C3: in the orchestrator, `partial_update` appends the current
residual to the detector history before `score_point` runs, and
`score_point` appends the candidate once more, so the z-score stored for
a measurement is computed over a sample containing that measurement's
residual (at least) twice. -/
theorem C3_residual_double_count {F : Type} (impl : IForestImpl F)
    (st : PipelineState F) (v : ℚ) :
    let r := v - st.digital_twin.predict.getD v
    let det1 := st.anomaly_detector.partialUpdate impl r
    det1.residuals_history = st.anomaly_detector.residuals_history ++ [r] ∧
    det1.scoreSample r =
      st.anomaly_detector.residuals_history ++ [r] ++ [r] ∧
    2 ≤ (det1.scoreSample r).count r ∧
    (processValue impl st v).1.zscore_sq =
      zscoreSqOfSample
        (st.anomaly_detector.residuals_history ++ [r] ++ [r]) r := by
  intro r det1
  have happ : det1.residuals_history =
      st.anomaly_detector.residuals_history ++ [r] :=
    partialUpdate_residuals_history impl st.anomaly_detector r
  have hsample : det1.scoreSample r =
      st.anomaly_detector.residuals_history ++ [r] ++ [r] := by
    rw [AnomalyDetector.scoreSample, happ]
  refine ⟨happ, hsample, ?_, ?_⟩
  · rw [hsample]
    simp [List.count_append]
  · show (det1.scorePoint impl r).zscore_sq = _
    rw [AnomalyDetector.scorePoint]
    dsimp only
    rw [hsample]

/-- C6: `compute_capability` returns null capability indices exactly in
the degenerate cases (zero sample variance, in particular `n ≤ 1`), and
otherwise the encoded `cp = (usl-lsl)/(6 std)` and
`cpk = min((usl-mean)/(3 std), (mean-lsl)/(3 std))`; on
`[1027,1028,1029]` with limits 1025/1032 it yields mean 1028, n 3,
variance 1 (std 1), range 2, `cp = 7/6` (signed square 49/36) and
`cpk = 1`; on `[5]` with limits 0/10 it yields n 1, zero variance, range
0, and null `cp`/`cpk`. -/
theorem C6_capability (values : List ℚ) (lsl usl : ℚ) :
    ((compute_cp_cpk values lsl usl).std_sq = 0 →
      (compute_cp_cpk values lsl usl).cp_sq = none ∧
      (compute_cp_cpk values lsl usl).cpk_sq = none) ∧
    (values.length ≤ 1 → (compute_cp_cpk values lsl usl).std_sq = 0) ∧
    ((compute_cp_cpk values lsl usl).std_sq ≠ 0 →
      (compute_cp_cpk values lsl usl).cp_sq =
        some (signedSq (usl - lsl) /
          (36 * (compute_cp_cpk values lsl usl).std_sq)) ∧
      (compute_cp_cpk values lsl usl).cpk_sq =
        some (min
          (signedSq (usl - (compute_cp_cpk values lsl usl).mean) /
            (9 * (compute_cp_cpk values lsl usl).std_sq))
          (signedSq ((compute_cp_cpk values lsl usl).mean - lsl) /
            (9 * (compute_cp_cpk values lsl usl).std_sq)))) ∧
    compute_cp_cpk [1027, 1028, 1029] 1025 1032 =
      ⟨1028, 1, 2, some (49 / 36), some 1, 1025, 1032, 3⟩ ∧
    compute_cp_cpk [5] 0 10 = ⟨5, 0, 0, none, none, 0, 10, 1⟩ := by
  refine ⟨?_, ?_, ?_, ?_, ?_⟩
  · intro h
    unfold compute_cp_cpk at *
    by_cases h0 : values.length = 0
    · simp [h0] at h ⊢
    · by_cases hv : listVarSample values = 0 <;> simp [h0, hv] at h ⊢
  · intro h
    unfold compute_cp_cpk
    by_cases h0 : values.length = 0
    · simp [h0]
    · have hv : listVarSample values = 0 := by
        unfold listVarSample
        have : ¬ 1 < values.length := by omega
        simp [this]
      simp [h0, hv]
  · intro h
    unfold compute_cp_cpk at *
    by_cases h0 : values.length = 0
    · simp [h0] at h
    · by_cases hv : listVarSample values = 0
      · simp [h0, hv] at h
      · simp [h0, hv]
  · have hm : listMean [1027, 1028, 1029] = 1028 := by
      norm_num [listMean]
    have hv : listVarSample [1027, 1028, 1029] = 1 := by
      norm_num [listVarSample, hm]
    unfold compute_cp_cpk
    norm_num [hv, hm, listMax, listMin, signedSq, min_def, max_def,
      abs_of_nonneg]
  · unfold compute_cp_cpk
    norm_num [listVarSample, listMean]

/-- Witness for C6: the degenerate single-sample case has zero variance
and null indices, and the three-sample example has nonnull encoded
indices. -/
theorem C6_witness :
    (compute_cp_cpk [5] 0 10).std_sq = 0 ∧
    (compute_cp_cpk [5] 0 10).cp_sq = none ∧
    (compute_cp_cpk [5] 0 10).cpk_sq = none ∧
    (compute_cp_cpk [1027, 1028, 1029] 1025 1032).cp_sq =
      some (signedSq (1032 - 1025) /
        (36 * (compute_cp_cpk [1027, 1028, 1029] 1025 1032).std_sq)) := by
  have h5 := C6_capability [5] 0 10
  have hstd : (compute_cp_cpk [5] 0 10).std_sq = 0 := h5.2.1 (by decide)
  have h3 := C6_capability [1027, 1028, 1029] 1025 1032
  have hne : (compute_cp_cpk [1027, 1028, 1029] 1025 1032).std_sq ≠ 0 := by
    rw [h3.2.2.2.1]
    norm_num
  exact ⟨hstd, (h5.1 hstd).1, (h5.1 hstd).2, (h3.2.2.1 hne).1⟩

/-- The complete run of the orchestrator on the spec's end-to-end
sequence `[1028 ×8, 1040]` from fresh state: the first eight
measurements have residual 0, z-score 0, no anomaly, level `normal`;
the ninth has residual 12 and z-score squared `18/5` (z ≈ 1.90), still
no anomaly and level `normal`; the final EMA is `1031.6 = 5158/5`. -/
theorem demoRun :
    processSeq trivialIF (PipelineState.fresh Unit)
      [1028, 1028, 1028, 1028, 1028, 1028, 1028, 1028, 1040] =
    ([⟨1028, some 1028, 0, 0, 0, false, "normal",
        "Resíduo dentro de faixa esperada."⟩,
      ⟨1028, some 1028, 0, 0, 0, false, "normal",
        "Resíduo dentro de faixa esperada."⟩,
      ⟨1028, some 1028, 0, 0, 0, false, "normal",
        "Resíduo dentro de faixa esperada."⟩,
      ⟨1028, some 1028, 0, 0, 0, false, "normal",
        "Resíduo dentro de faixa esperada."⟩,
      ⟨1028, some 1028, 0, 0, 0, false, "normal",
        "Resíduo dentro de faixa esperada."⟩,
      ⟨1028, some 1028, 0, 0, 0, false, "normal",
        "Resíduo dentro de faixa esperada."⟩,
      ⟨1028, some 1028, 0, 0, 0, false, "normal",
        "Resíduo dentro de faixa esperada."⟩,
      ⟨1028, some 1028, 0, 0, 0, false, "normal",
        "Resíduo dentro de faixa esperada."⟩,
      ⟨1040, some 1028, 12, 18 / 5, 0, false, "normal",
        "Resíduo dentro de faixa esperada."⟩],
     ⟨⟨{}, some (5158 / 5),
        [1028, 1028, 1028, 1028, 1028, 1028, 1028, 1028, 1040]⟩,
      ⟨{}, none, false, [0, 0, 0, 0, 0, 0, 0, 0, 12]⟩⟩) := by
  have h1 : processValue trivialIF (PipelineState.fresh Unit) 1028 =
      (⟨1028, some 1028, 0, 0, 0, false, "normal",
        "Resíduo dentro de faixa esperada."⟩,
       ⟨⟨{}, some 1028, [1028]⟩, ⟨{}, none, false, [0]⟩⟩) := by
    norm_num [processValue, PipelineState.fresh, DigitalTwinModel.fresh,
      AnomalyDetector.fresh, DigitalTwinModel.predict,
      DigitalTwinModel.update, dequeAppend1000,
      AnomalyDetector.partialUpdate, AnomalyDetector.fit,
      AnomalyDetector.scorePoint, AnomalyDetector.scoreSample,
      AnomalyDetector.iforestEval, zscoreSqOfSample, listMean,
      listVarSample, signedSq, SamplingEngine.decide, trivialIF,
      decide_eq_false_iff_not, abs_of_nonneg]
  have h2 : processValue trivialIF
      (⟨⟨{}, some 1028, [1028]⟩, ⟨{}, none, false, [0]⟩⟩ :
        PipelineState Unit) 1028 =
      (⟨1028, some 1028, 0, 0, 0, false, "normal",
        "Resíduo dentro de faixa esperada."⟩,
       ⟨⟨{}, some 1028, [1028, 1028]⟩, ⟨{}, none, false, [0, 0]⟩⟩) := by
    norm_num [processValue, DigitalTwinModel.predict,
      DigitalTwinModel.update, dequeAppend1000,
      AnomalyDetector.partialUpdate, AnomalyDetector.fit,
      AnomalyDetector.scorePoint, AnomalyDetector.scoreSample,
      AnomalyDetector.iforestEval, zscoreSqOfSample, listMean,
      listVarSample, signedSq, SamplingEngine.decide, trivialIF,
      decide_eq_false_iff_not, abs_of_nonneg]
  have h3 : processValue trivialIF
      (⟨⟨{}, some 1028, [1028, 1028]⟩, ⟨{}, none, false, [0, 0]⟩⟩ :
        PipelineState Unit) 1028 =
      (⟨1028, some 1028, 0, 0, 0, false, "normal",
        "Resíduo dentro de faixa esperada."⟩,
       ⟨⟨{}, some 1028, [1028, 1028, 1028]⟩,
        ⟨{}, none, false, [0, 0, 0]⟩⟩) := by
    norm_num [processValue, DigitalTwinModel.predict,
      DigitalTwinModel.update, dequeAppend1000,
      AnomalyDetector.partialUpdate, AnomalyDetector.fit,
      AnomalyDetector.scorePoint, AnomalyDetector.scoreSample,
      AnomalyDetector.iforestEval, zscoreSqOfSample, listMean,
      listVarSample, signedSq, SamplingEngine.decide, trivialIF,
      decide_eq_false_iff_not, abs_of_nonneg]
  have h4 : processValue trivialIF
      (⟨⟨{}, some 1028, [1028, 1028, 1028]⟩,
        ⟨{}, none, false, [0, 0, 0]⟩⟩ : PipelineState Unit) 1028 =
      (⟨1028, some 1028, 0, 0, 0, false, "normal",
        "Resíduo dentro de faixa esperada."⟩,
       ⟨⟨{}, some 1028, [1028, 1028, 1028, 1028]⟩,
        ⟨{}, none, false, [0, 0, 0, 0]⟩⟩) := by
    norm_num [processValue, DigitalTwinModel.predict,
      DigitalTwinModel.update, dequeAppend1000,
      AnomalyDetector.partialUpdate, AnomalyDetector.fit,
      AnomalyDetector.scorePoint, AnomalyDetector.scoreSample,
      AnomalyDetector.iforestEval, zscoreSqOfSample, listMean,
      listVarSample, signedSq, SamplingEngine.decide, trivialIF,
      decide_eq_false_iff_not, abs_of_nonneg]
  have h5 : processValue trivialIF
      (⟨⟨{}, some 1028, [1028, 1028, 1028, 1028]⟩,
        ⟨{}, none, false, [0, 0, 0, 0]⟩⟩ : PipelineState Unit) 1028 =
      (⟨1028, some 1028, 0, 0, 0, false, "normal",
        "Resíduo dentro de faixa esperada."⟩,
       ⟨⟨{}, some 1028, [1028, 1028, 1028, 1028, 1028]⟩,
        ⟨{}, none, false, [0, 0, 0, 0, 0]⟩⟩) := by
    norm_num [processValue, DigitalTwinModel.predict,
      DigitalTwinModel.update, dequeAppend1000,
      AnomalyDetector.partialUpdate, AnomalyDetector.fit,
      AnomalyDetector.scorePoint, AnomalyDetector.scoreSample,
      AnomalyDetector.iforestEval, zscoreSqOfSample, listMean,
      listVarSample, signedSq, SamplingEngine.decide, trivialIF,
      decide_eq_false_iff_not, abs_of_nonneg]
  have h6 : processValue trivialIF
      (⟨⟨{}, some 1028, [1028, 1028, 1028, 1028, 1028]⟩,
        ⟨{}, none, false, [0, 0, 0, 0, 0]⟩⟩ : PipelineState Unit) 1028 =
      (⟨1028, some 1028, 0, 0, 0, false, "normal",
        "Resíduo dentro de faixa esperada."⟩,
       ⟨⟨{}, some 1028, [1028, 1028, 1028, 1028, 1028, 1028]⟩,
        ⟨{}, none, false, [0, 0, 0, 0, 0, 0]⟩⟩) := by
    norm_num [processValue, DigitalTwinModel.predict,
      DigitalTwinModel.update, dequeAppend1000,
      AnomalyDetector.partialUpdate, AnomalyDetector.fit,
      AnomalyDetector.scorePoint, AnomalyDetector.scoreSample,
      AnomalyDetector.iforestEval, zscoreSqOfSample, listMean,
      listVarSample, signedSq, SamplingEngine.decide, trivialIF,
      decide_eq_false_iff_not, abs_of_nonneg]
  have h7 : processValue trivialIF
      (⟨⟨{}, some 1028, [1028, 1028, 1028, 1028, 1028, 1028]⟩,
        ⟨{}, none, false, [0, 0, 0, 0, 0, 0]⟩⟩ :
        PipelineState Unit) 1028 =
      (⟨1028, some 1028, 0, 0, 0, false, "normal",
        "Resíduo dentro de faixa esperada."⟩,
       ⟨⟨{}, some 1028, [1028, 1028, 1028, 1028, 1028, 1028, 1028]⟩,
        ⟨{}, none, false, [0, 0, 0, 0, 0, 0, 0]⟩⟩) := by
    norm_num [processValue, DigitalTwinModel.predict,
      DigitalTwinModel.update, dequeAppend1000,
      AnomalyDetector.partialUpdate, AnomalyDetector.fit,
      AnomalyDetector.scorePoint, AnomalyDetector.scoreSample,
      AnomalyDetector.iforestEval, zscoreSqOfSample, listMean,
      listVarSample, signedSq, SamplingEngine.decide, trivialIF,
      decide_eq_false_iff_not, abs_of_nonneg]
  have h8 : processValue trivialIF
      (⟨⟨{}, some 1028, [1028, 1028, 1028, 1028, 1028, 1028, 1028]⟩,
        ⟨{}, none, false, [0, 0, 0, 0, 0, 0, 0]⟩⟩ :
        PipelineState Unit) 1028 =
      (⟨1028, some 1028, 0, 0, 0, false, "normal",
        "Resíduo dentro de faixa esperada."⟩,
       ⟨⟨{}, some 1028,
          [1028, 1028, 1028, 1028, 1028, 1028, 1028, 1028]⟩,
        ⟨{}, none, false, [0, 0, 0, 0, 0, 0, 0, 0]⟩⟩) := by
    norm_num [processValue, DigitalTwinModel.predict,
      DigitalTwinModel.update, dequeAppend1000,
      AnomalyDetector.partialUpdate, AnomalyDetector.fit,
      AnomalyDetector.scorePoint, AnomalyDetector.scoreSample,
      AnomalyDetector.iforestEval, zscoreSqOfSample, listMean,
      listVarSample, signedSq, SamplingEngine.decide, trivialIF,
      decide_eq_false_iff_not, abs_of_nonneg]
  have h9 : processValue trivialIF
      (⟨⟨{}, some 1028,
          [1028, 1028, 1028, 1028, 1028, 1028, 1028, 1028]⟩,
        ⟨{}, none, false, [0, 0, 0, 0, 0, 0, 0, 0]⟩⟩ :
        PipelineState Unit) 1040 =
      (⟨1040, some 1028, 12, 18 / 5, 0, false, "normal",
        "Resíduo dentro de faixa esperada."⟩,
       ⟨⟨{}, some (5158 / 5),
          [1028, 1028, 1028, 1028, 1028, 1028, 1028, 1028, 1040]⟩,
        ⟨{}, none, false, [0, 0, 0, 0, 0, 0, 0, 0, 12]⟩⟩) := by
    norm_num [processValue, DigitalTwinModel.predict,
      DigitalTwinModel.update, dequeAppend1000,
      AnomalyDetector.partialUpdate, AnomalyDetector.fit,
      AnomalyDetector.scorePoint, AnomalyDetector.scoreSample,
      AnomalyDetector.iforestEval, zscoreSqOfSample, listMean,
      listVarSample, signedSq, SamplingEngine.decide, trivialIF,
      decide_eq_false_iff_not, abs_of_nonneg]
  simp [processSeq, h1, h2, h3, h4, h5, h6, h7, h8, h9]

/-- Counterexample to C1: on the 9th point of the spec's end-to-end
sequence the code does NOT flag an anomaly and does NOT choose the
critical sampling level: the z-score is `9.6/√25.6 ≈ 1.90` (below both
the anomaly threshold 3 and the attention threshold 2, the candidate
residual being double-counted in the sample), the model is unfitted, so
`is_anomaly = false` and `sampling_level = "normal"`. -/
theorem C1_counterexample :
    ((processSeq trivialIF (PipelineState.fresh Unit)
        [1028, 1028, 1028, 1028, 1028, 1028, 1028, 1028, 1040]).1.getD 8
      ⟨0, none, 0, 0, 0, true, "", ""⟩).is_anomaly = false ∧
    ((processSeq trivialIF (PipelineState.fresh Unit)
        [1028, 1028, 1028, 1028, 1028, 1028, 1028, 1028, 1040]).1.getD 8
      ⟨0, none, 0, 0, 0, true, "", ""⟩).sampling_level = "normal" ∧
    "normal" ≠ "critico" := by
  rw [demoRun]
  exact ⟨rfl, rfl, by decide⟩

/-- C1 as amended: feeding `[1028 ×8, 1040]` (α = 0.3) through the
orchestrator on fresh state yields residual 0 and z-score 0 for the
first 8 points, and on the 9th a sharply elevated residual (12) and a
non-zero z-score (signed square `18/5`, i.e. z ≈ 1.90 < 2); however
`is_anomaly` is `false` and the sampling level is `normal` (not
`critical`), since `|z|` stays below both thresholds and the outlier
model is unfitted. -/
theorem C1_pipeline_amended :
    ((processSeq trivialIF (PipelineState.fresh Unit)
        [1028, 1028, 1028, 1028, 1028, 1028, 1028, 1028, 1040]).1.map
      fun m => (m.residual, m.zscore_sq, m.is_anomaly,
        m.sampling_level)) =
    [(0, 0, false, "normal"), (0, 0, false, "normal"),
     (0, 0, false, "normal"), (0, 0, false, "normal"),
     (0, 0, false, "normal"), (0, 0, false, "normal"),
     (0, 0, false, "normal"), (0, 0, false, "normal"),
     (12, 18 / 5, false, "normal")] := by
  rw [demoRun]
  rfl

/-! ## Run-rule characterization (claim C7) -/

/-- Membership in `sortedInsert`. -/
theorem mem_sortedInsert (k n : ℕ) (l : List ℕ) :
    k ∈ sortedInsert n l ↔ k = n ∨ k ∈ l := by
  induction l with
  | nil => simp [sortedInsert]
  | cons m ms ih =>
    by_cases h1 : n < m
    · simp [sortedInsert, h1]
    · by_cases h2 : n = m
      · subst h2
        simp only [sortedInsert, if_neg h1, if_pos rfl]
        constructor
        · intro h
          exact Or.inr h
        · rintro (rfl | h)
          · exact List.mem_cons_self _ _
          · exact h
      · simp only [sortedInsert, if_neg h1, if_neg h2, List.mem_cons, ih]
        tauto

/-- `sortedInsert` preserves strict sortedness. -/
theorem sorted_sortedInsert (n : ℕ) (l : List ℕ)
    (h : l.Sorted (· < ·)) : (sortedInsert n l).Sorted (· < ·) := by
  induction l with
  | nil => simp [sortedInsert]
  | cons m ms ih =>
    rcases List.pairwise_cons.mp h with ⟨hm, hms⟩
    by_cases h1 : n < m
    · simp only [sortedInsert, if_pos h1]
      refine List.pairwise_cons.mpr ⟨?_, h⟩
      intro b hb
      rcases List.mem_cons.mp hb with rfl | hb
      · exact h1
      · exact h1.trans (hm b hb)
    · by_cases h2 : n = m
      · subst h2
        simpa [sortedInsert, if_neg h1] using h
      · have hmn : m < n := by omega
        simp only [sortedInsert, if_neg h1, if_neg h2]
        refine List.pairwise_cons.mpr ⟨?_, ih hms⟩
        intro b hb
        rcases (mem_sortedInsert b n ms).mp hb with rfl | hb
        · exact hmn
        · exact hm b hb

/-- Membership in `sortedDedup` is membership in the original list. -/
theorem mem_sortedDedup (k : ℕ) (l : List ℕ) :
    k ∈ sortedDedup l ↔ k ∈ l := by
  induction l with
  | nil => simp [sortedDedup]
  | cons m ms ih =>
    simp only [sortedDedup, List.foldr_cons, List.mem_cons]
    rw [show List.foldr sortedInsert [] ms = sortedDedup ms from rfl] at *
    rw [mem_sortedInsert, ih]

/-- `sortedDedup` returns a strictly increasing (hence deduplicated,
ascending) list. -/
theorem sorted_sortedDedup (l : List ℕ) :
    (sortedDedup l).Sorted (· < ·) := by
  induction l with
  | nil => simp [sortedDedup]
  | cons m ms ih => exact sorted_sortedInsert m _ ih

/-- The start of the maximal constant run of `side` ending at the given
index: index 0 starts its own run; index `i+1` continues the run of `i`
exactly when the sides agree. -/
def runStart (side : List ℤ) : ℕ → ℕ
  | 0 => 0
  | i + 1 => if side.getD (i + 1) 0 = side.getD i 0 then runStart side i
    else i + 1

/-- `runStart` never exceeds its index. -/
theorem runStart_le (side : List ℤ) (i : ℕ) : runStart side i ≤ i := by
  induction i with
  | zero => exact le_refl 0
  | succ j ih =>
    rw [runStart]
    split_ifs
    · omega
    · omega

/-- Every index in the run `[runStart i, i]` carries the same side as
index `i`. -/
theorem runStart_sameSide (side : List ℤ) (i : ℕ) :
    ∀ j, runStart side i ≤ j → j ≤ i → side.getD j 0 = side.getD i 0 := by
  induction i with
  | zero =>
    intro j h0 h1
    have : j = 0 := by omega
    rw [this]
  | succ n ih =>
    intro j h0 h1
    rw [runStart] at h0
    by_cases hc : side.getD (n + 1) 0 = side.getD n 0
    · rw [if_pos hc] at h0
      rcases Nat.lt_or_ge j (n + 1) with hj | hj
      · rw [hc]
        exact ih j h0 (by omega)
      · have : j = n + 1 := by omega
        rw [this]
    · rw [if_neg hc] at h0
      have : j = n + 1 := by omega
      rw [this]

/-- If all indices of `[a, i]` carry the side of `i`, the run ending at
`i` starts at or before `a`. -/
theorem runStart_le_of_sameSide (side : List ℤ) :
    ∀ i a, a ≤ i →
      (∀ j, a ≤ j → j ≤ i → side.getD j 0 = side.getD i 0) →
      runStart side i ≤ a := by
  intro i
  induction i with
  | zero =>
    intro a _ _
    exact le_refl 0 |>.trans (Nat.zero_le a)
  | succ n ih =>
    intro a ha hall
    rcases Nat.lt_or_ge a (n + 1) with hlt | hge
    · have hc : side.getD (n + 1) 0 = side.getD n 0 := by
        exact (hall n (by omega) (by omega)).symm
      rw [runStart, if_pos hc]
      refine ih a (by omega) ?_
      intro j hj1 hj2
      rw [← hc]
      exact hall j hj1 (by omega)
    · have : a = n + 1 := by omega
      rw [this]
      exact runStart_le side (n + 1)

/-- Invariant-based characterization of the rule-4 loop: starting at
index `i ≥ 1` with enough fuel and a `streak_start` that is correct for
index `i-1` (when that index is off the mean), an index `k` is collected
iff it was already accumulated or lies inside the maximal same-side run
`[runStart m, m]` of some index `m ≥ i` whose run has reached length
≥ 8. -/
theorem rule4Go_mem (side : List ℤ) :
    ∀ (fuel i streak : ℕ) (acc : List ℕ),
      side.length ≤ i + fuel → 1 ≤ i →
      (side.getD (i - 1) 0 ≠ 0 → streak = runStart side (i - 1)) →
      ∀ k, k ∈ rule4Go side fuel i streak acc ↔
        k ∈ acc ∨ ∃ m, i ≤ m ∧ m < side.length ∧ side.getD m 0 ≠ 0 ∧
          runStart side m + 7 ≤ m ∧ runStart side m ≤ k ∧ k ≤ m := by
  intro fuel
  induction fuel with
  | zero =>
    intro i streak acc hlen hi _ k
    rw [rule4Go]
    constructor
    · exact Or.inl
    · rintro (h | ⟨m, him, hm, -⟩)
      · exact h
      · omega
  | succ fuel ih =>
    intro i streak acc hlen hi hinv k
    rw [rule4Go]
    by_cases hil : i < side.length
    case neg =>
      rw [if_neg hil]
      constructor
      · exact Or.inl
      · rintro (h | ⟨m, him, hm, -⟩)
        · exact h
        · omega
    case pos =>
      rw [if_pos hil]
      by_cases hz : side.getD i 0 = 0
      · rw [if_pos hz]
        have hinv1 : side.getD ((i + 1) - 1) 0 ≠ 0 →
            i + 1 = runStart side ((i + 1) - 1) := by
          intro h
          rw [Nat.add_sub_cancel] at h
          exact absurd hz h
        rw [ih (i + 1) (i + 1) acc (by omega) (by omega) hinv1 k]
        constructor
        · rintro (h | ⟨m, h1, h2, h3, h4, h5, h6⟩)
          · exact Or.inl h
          · exact Or.inr ⟨m, by omega, h2, h3, h4, h5, h6⟩
        · rintro (h | ⟨m, h1, h2, h3, h4, h5, h6⟩)
          · exact Or.inl h
          · have hne : m ≠ i := fun he => h3 (he ▸ hz)
            exact Or.inr ⟨m, by omega, h2, h3, h4, h5, h6⟩
      · rw [if_neg hz]
        dsimp only
        obtain ⟨j, rfl⟩ : ∃ j, i = j + 1 := ⟨i - 1, by omega⟩
        simp only [Nat.add_sub_cancel] at hinv ⊢
        have hstreak1 :
            (if side.getD (j + 1) 0 ≠ side.getD j 0 then j + 1
              else streak) = runStart side (j + 1) := by
          by_cases hc : side.getD (j + 1) 0 = side.getD j 0
          · rw [if_neg (not_not_intro hc), runStart, if_pos hc]
            exact hinv (fun h0 => hz (hc.trans h0))
          · rw [if_pos hc, runStart, if_neg hc]
        rw [hstreak1]
        have hSle : runStart side (j + 1) ≤ j + 1 := runStart_le side (j + 1)
        have hinv1 : side.getD ((j + 1 + 1) - 1) 0 ≠ 0 →
            runStart side (j + 1) = runStart side ((j + 1 + 1) - 1) := by
          intro _
          rw [Nat.add_sub_cancel]
        rw [ih (j + 1 + 1) (runStart side (j + 1)) _ (by omega) (by omega)
          hinv1 k]
        have hacc1 : ∀ kk : ℕ,
            (kk ∈ if 8 ≤ j + 1 + 1 - runStart side (j + 1) then
              acc ++ List.range' (runStart side (j + 1))
                (j + 1 + 1 - runStart side (j + 1)) else acc) ↔
            kk ∈ acc ∨ (runStart side (j + 1) + 7 ≤ j + 1 ∧
              runStart side (j + 1) ≤ kk ∧ kk ≤ j + 1) := by
          intro kk
          by_cases h8 : 8 ≤ j + 1 + 1 - runStart side (j + 1)
          · rw [if_pos h8]
            rw [List.mem_append, List.mem_range'_1]
            have : (runStart side (j + 1) ≤ kk ∧
                kk < runStart side (j + 1) +
                  (j + 1 + 1 - runStart side (j + 1))) ↔
                (runStart side (j + 1) + 7 ≤ j + 1 ∧
                  runStart side (j + 1) ≤ kk ∧ kk ≤ j + 1) := by
              omega
            rw [this]
          · rw [if_neg h8]
            have : ¬ (runStart side (j + 1) + 7 ≤ j + 1) := by omega
            simp [this]
        rw [hacc1 k]
        constructor
        · rintro ((h | ⟨h7, hk1, hk2⟩) | ⟨m, h1, h2, h3, h4, h5, h6⟩)
          · exact Or.inl h
          · exact Or.inr ⟨j + 1, le_refl _, hil, hz, h7, hk1, hk2⟩
          · exact Or.inr ⟨m, by omega, h2, h3, h4, h5, h6⟩
        · rintro (h | ⟨m, h1, h2, h3, h4, h5, h6⟩)
          · exact Or.inl (Or.inl h)
          · by_cases hmi : m = j + 1
            · subst hmi
              exact Or.inl (Or.inr ⟨h4, h5, h6⟩)
            · exact Or.inr ⟨m, by omega, h2, h3, h4, h5, h6⟩

/-- Closed form of the rule-4 loop output: `k` is flagged iff it lies
in the length-≥-8 same-side run ending at some index `m`. -/
theorem rule4Idx_mem (side : List ℤ) (k : ℕ) :
    k ∈ rule4Idx side ↔
      ∃ m, m < side.length ∧ side.getD m 0 ≠ 0 ∧
        runStart side m + 7 ≤ m ∧ runStart side m ≤ k ∧ k ≤ m := by
  rw [rule4Idx,
    rule4Go_mem side side.length 1 0 [] (by omega) (by omega)
      (fun _ => rfl) k]
  simp only [List.not_mem_nil, false_or]
  constructor
  · rintro ⟨m, _, h2, h3, h4, h5, h6⟩
    exact ⟨m, h2, h3, h4, h5, h6⟩
  · rintro ⟨m, h2, h3, h4, h5, h6⟩
    exact ⟨m, by omega, h2, h3, h4, h5, h6⟩

/-- The claim's description of a rule-4 violation at index `k`: `k`
belongs to a window `[a, b]` of at least 8 consecutive indices all
strictly on the same side of the mean (no index on the mean, no sign
change inside the window). -/
def sameSideRun (side : List ℤ) (k : ℕ) : Prop :=
  ∃ a b, a ≤ k ∧ k ≤ b ∧ b < side.length ∧ a + 7 ≤ b ∧
    side.getD a 0 ≠ 0 ∧
    ∀ j, a ≤ j → j ≤ b → side.getD j 0 = side.getD a 0

/-- The loop output coincides with the window specification. -/
theorem rule4Idx_mem_iff_sameSideRun (side : List ℤ) (k : ℕ) :
    k ∈ rule4Idx side ↔ sameSideRun side k := by
  rw [rule4Idx_mem]
  constructor
  · rintro ⟨m, hlen, hz, h7, hk1, hk2⟩
    have hsa : side.getD (runStart side m) 0 = side.getD m 0 :=
      runStart_sameSide side m (runStart side m) (le_refl _)
        (runStart_le side m)
    refine ⟨runStart side m, m, hk1, hk2, hlen, h7, ?_, ?_⟩
    · rw [hsa]
      exact hz
    · intro j hj1 hj2
      rw [runStart_sameSide side m j hj1 hj2, hsa]
  · rintro ⟨a, b, hak, hkb, hblen, hab, haz, hall⟩
    have hba : side.getD b 0 = side.getD a 0 :=
      hall b (by omega) (le_refl b)
    have hrs : runStart side b ≤ a :=
      runStart_le_of_sameSide side b a (by omega)
        (fun j hj1 hj2 => (hall j hj1 hj2).trans hba.symm)
    refine ⟨b, hblen, ?_, by omega, by omega, hkb⟩
    rw [hba]
    exact haz

/-- C7: the run-rule detector returns empty sets when fewer than 8
values are supplied or the sample variance is 0; otherwise rule 1 flags
exactly the indices with `|v - mean| > 3 std` (encoded as
`(v - mean)² > 9 var`), rule 4 flags exactly the indices lying in a
window of ≥ 8 consecutive points strictly on one side of the mean
(a point on the mean or a sign change cannot occur inside a window),
and both index lists are strictly increasing, hence deduplicated and
ascending. -/
theorem C7_run_rules (values : List ℚ) (k : ℕ) :
    (values.length < 8 → detect_run_rules values = ⟨[], []⟩) ∧
    (listVarSample values = 0 → detect_run_rules values = ⟨[], []⟩) ∧
    (8 ≤ values.length → 0 < listVarSample values →
      ((k ∈ (detect_run_rules values).rule1 ↔
        k < values.length ∧
          9 * listVarSample values <
            (values.getD k 0 - listMean values) ^ 2) ∧
       (k ∈ (detect_run_rules values).rule4 ↔
        sameSideRun (values.map fun v => sgn (v - listMean values)) k))) ∧
    (detect_run_rules values).rule1.Sorted (· < ·) ∧
    (detect_run_rules values).rule4.Sorted (· < ·) := by
  refine ⟨?_, ?_, ?_, ?_, ?_⟩
  · intro h8
    rw [detect_run_rules, if_pos h8]
  · intro hv
    rw [detect_run_rules]
    by_cases h8 : values.length < 8
    · rw [if_pos h8]
    · rw [if_neg h8]
      dsimp only
      rw [hv, if_neg (lt_irrefl 0)]
      rfl
  · intro h8 hv
    rw [detect_run_rules, if_neg (not_lt.mpr h8)]
    dsimp only
    rw [if_pos hv]
    constructor
    · rw [mem_sortedDedup, List.mem_filter, List.mem_range,
        decide_eq_true_eq]
    · rw [mem_sortedDedup, rule4Idx_mem_iff_sameSideRun]
  · rw [detect_run_rules]
    by_cases h8 : values.length < 8
    · rw [if_pos h8]
      simp
    · rw [if_neg h8]
      exact sorted_sortedDedup _
  · rw [detect_run_rules]
    by_cases h8 : values.length < 8
    · rw [if_pos h8]
      simp
    · rw [if_neg h8]
      exact sorted_sortedDedup _

/-- Witness for C7 at `[0 ×8, 1]`: the variance is positive, and index 3
is flagged under rule 4 because indices 0–7 form an 8-long run strictly
below the mean. -/
theorem C7_witness :
    8 ≤ ([0, 0, 0, 0, 0, 0, 0, 0, 1] : List ℚ).length ∧
    0 < listVarSample [0, 0, 0, 0, 0, 0, 0, 0, 1] ∧
    3 ∈ (detect_run_rules [0, 0, 0, 0, 0, 0, 0, 0, 1]).rule4 := by
  have h8 : 8 ≤ ([0, 0, 0, 0, 0, 0, 0, 0, 1] : List ℚ).length := by
    simp
  have hv : 0 < listVarSample [0, 0, 0, 0, 0, 0, 0, 0, 1] := by
    norm_num [listVarSample, listMean]
  have hside : (([0, 0, 0, 0, 0, 0, 0, 0, 1] : List ℚ).map
      fun v => sgn (v - listMean [0, 0, 0, 0, 0, 0, 0, 0, 1])) =
      [-1, -1, -1, -1, -1, -1, -1, -1, 1] := by
    norm_num [listMean, sgn]
  refine ⟨h8, hv, ?_⟩
  refine (((C7_run_rules [0, 0, 0, 0, 0, 0, 0, 0, 1] 3).2.2.1 h8
    hv).2).mpr ?_
  rw [hside]
  refine ⟨0, 7, by omega, by omega, by simp, by omega, by decide, ?_⟩
  intro j hj1 hj2
  interval_cases j <;> rfl

end SmartTwin
